import Mathlib

/-!
Verification of the Kanban-bot persistence layer (`src/db/database.py`,
class `KanbanDatabase`) against its specification.

Shallow embedding notes.

* The SQLite store is embedded as `DBState`: the `boards`, `tasks` and
  `admin_roles` tables are lists of rows, and the `AUTOINCREMENT` row-id
  generators are the counters `nextBoardId` / `nextTaskId`.
* `tasks.board_id` is `Option Nat`: the legacy schema allowed rows with a
  NULL board reference, which `migrate_legacy_data` queries for
  (`WHERE board_id IS NULL`).
* Crucially, `get_connection` (database.py line 14) is a bare
  `sqlite3.connect(...)` and never issues `PRAGMA foreign_keys = ON`.
  SQLite disables foreign-key enforcement by default, so the
  `ON DELETE CASCADE` clause declared on `tasks.board_id` never fires at
  runtime.  The embedding models the runtime behaviour: `delete_board`
  removes only the board row and leaves the board's tasks in place.
* Python `**kwargs` dicts passed to `update_board` / `update_task` map
  each known column name to at most one value; they are embedded as
  records of `Option` fields (`BoardUpdate`, `TaskUpdate`).  An unknown
  column key would make the built SQL fail, be caught, and return
  `False` with no committed change; that store-error path is outside the
  embedded input space.
* `created_at` / `updated_at` timestamps and SQL `ORDER BY` clauses are
  not modelled: no claim under verification observes either.
* Every write operation returns `(result, state, leaked)` where `leaked`
  counts connections the operation opened (`get_connection`) but never
  explicitly closed (`conn.close()`, normally in a `finally` block) on
  the taken path.  `update_task` (database.py lines 559-610) is the one
  write operation with no `finally`/`close`, so it yields `leaked = 1`
  on every path that reaches `get_connection`.
* Python truthiness: `is_admin` returns `result and result[0]`, which is
  falsy when no row exists or the stored flag is 0; it is embedded as a
  `Bool`.
-/

namespace Kanban

/-- Python's `not s.strip()` test: true exactly when every character of
`s` is whitespace (vacuously for the empty string).  Embedded over the
character list rather than via `String.trim` so concrete instances
evaluate by kernel reduction. -/
def isBlank (s : String) : Bool :=
  s.toList.all (fun c => c.isWhitespace)

/-- `KanbanDatabase.VALID_STATUSES` (database.py line 7). -/
def VALID_STATUSES : List String := ["todo", "doing", "done"]

/-- `KanbanDatabase.BOARD_TYPES` (database.py line 8). -/
def BOARD_TYPES : List String := ["personal", "public"]

/-- A row of the `boards` table (timestamps omitted). -/
structure Board where
  id : Nat
  name : String
  description : String
  boardType : String
  ownerId : String
deriving DecidableEq, Repr

/-- A row of the `tasks` table (timestamps omitted).  `boardId` is
`Option Nat` because legacy rows may carry a NULL board reference. -/
structure Task where
  id : Nat
  boardId : Option Nat
  userId : String
  title : String
  description : String
  status : String
  priority : Int
  dueDate : Option String
deriving DecidableEq, Repr

/-- The whole store: the three tables plus the AUTOINCREMENT counters. -/
structure DBState where
  boards : List Board
  tasks : List Task
  adminRoles : List (String × Bool)
  nextBoardId : Nat
  nextTaskId : Nat
deriving DecidableEq, Repr

/-- `is_admin` (database.py lines 439-456): look the user up in
`admin_roles`; no row, or a row holding 0, reads as false. -/
def is_admin (s : DBState) (userId : String) : Bool :=
  match s.adminRoles.find? (fun r => r.1 == userId) with
  | some r => r.2
  | none => false

/-- `set_admin` (database.py lines 415-433): `INSERT OR REPLACE` keyed on
the `user_id` primary key deletes any conflicting row and inserts the new
one. -/
def set_admin (s : DBState) (userId : String) (isAdminFlag : Bool) :
    Bool × DBState × Nat :=
  (true,
   { s with adminRoles :=
       s.adminRoles.filter (fun r => r.1 != userId) ++ [(userId, isAdminFlag)] },
   0)

/-- `remove_admin` (database.py lines 435-437): literally
`return self.set_admin(user_id, False)`. -/
def remove_admin (s : DBState) (userId : String) : Bool × DBState × Nat :=
  set_admin s userId false

/-- `create_board` (database.py lines 240-267).  Validation happens before
the connection opens; the insert assigns the next row id. -/
def create_board (s : DBState) (name ownerId description boardType : String) :
    Option Nat × DBState × Nat :=
  if isBlank name then (none, s, 0)
  else if boardType ∉ BOARD_TYPES then (none, s, 0)
  else
    (some s.nextBoardId,
     { s with
        boards := s.boards ++ [⟨s.nextBoardId, name, description, boardType, ownerId⟩],
        nextBoardId := s.nextBoardId + 1 },
     0)

/-- The `**kwargs` dict accepted by `update_board`, as a record of
optional columns (a Python dict binds each key at most once). -/
structure BoardUpdate where
  name : Option String := none
  description : Option String := none
  boardType : Option String := none
  ownerId : Option String := none
deriving DecidableEq, Repr

/-- `not kwargs` test of `update_board`. -/
def BoardUpdate.isEmpty (k : BoardUpdate) : Bool :=
  k.name.isNone && k.description.isNone && k.boardType.isNone && k.ownerId.isNone

/-- `'board_type' in kwargs and kwargs['board_type'] not in BOARD_TYPES`. -/
def BoardUpdate.badType (k : BoardUpdate) : Bool :=
  match k.boardType with
  | some v => !BOARD_TYPES.contains v
  | none => false

/-- The dynamic `SET` clause of `update_board`, applied to one row. -/
def applyBoardUpdate (k : BoardUpdate) (b : Board) : Board :=
  { b with
    name := k.name.getD b.name,
    description := k.description.getD b.description,
    boardType := k.boardType.getD b.boardType,
    ownerId := k.ownerId.getD b.ownerId }

/-- Board write/delete permission (database.py lines 296, 336, 486):
requester owns the board, or the board is public and the requester holds
the admin flag. -/
def board_write_perm (s : DBState) (b : Board) (userId : String) : Bool :=
  b.ownerId == userId || (b.boardType == "public" && is_admin s userId)

/-- Board read permission (database.py lines 160, 211, 401): owner, or
the board is public. -/
def board_read_perm (b : Board) (userId : String) : Bool :=
  b.ownerId == userId || b.boardType == "public"

/-- `update_board` (database.py lines 269-315): validate `board_type` and
non-emptiness of the kwargs, load the board, check the write permission,
then apply the dynamic `SET` clause to the matching row. -/
def update_board (s : DBState) (boardId : Nat) (userId : String)
    (kw : BoardUpdate) : Bool × DBState × Nat :=
  if kw.badType then (false, s, 0)
  else if kw.isEmpty then (false, s, 0)
  else
    match s.boards.find? (fun b => b.id == boardId) with
    | none => (false, s, 0)
    | some b =>
      if board_write_perm s b userId then
        (true,
         { s with boards :=
             s.boards.map (fun b2 =>
               if b2.id == boardId then applyBoardUpdate kw b2 else b2) },
         0)
      else (false, s, 0)

/-- `delete_board` (database.py lines 317-351): load the board, check the
write permission, then `DELETE FROM boards WHERE id = ?`.  Because
`get_connection` never enables `PRAGMA foreign_keys`, the declared
`ON DELETE CASCADE` does not fire: the tasks list is untouched. -/
def delete_board (s : DBState) (boardId : Nat) (userId : String) :
    Bool × DBState × Nat :=
  match s.boards.find? (fun b => b.id == boardId) with
  | none => (false, s, 0)
  | some b =>
    if board_write_perm s b userId then
      (true, { s with boards := s.boards.filter (fun b2 => b2.id != boardId) }, 0)
    else (false, s, 0)

/-- `get_board_details` (database.py lines 380-412). -/
def get_board_details (s : DBState) (boardId : Nat) (userId : String) :
    Option Board :=
  match s.boards.find? (fun b => b.id == boardId) with
  | none => none
  | some b => if board_read_perm b userId then some b else none

/-- `list_boards_for_user` (database.py lines 353-378); row order is not
modelled. -/
def list_boards_for_user (s : DBState) (userId : String) : List Board :=
  s.boards.filter (fun b => board_read_perm b userId)

/-- `list_tasks_by_board` (database.py lines 131-190).  An invalid (or,
via Python falsiness, empty) status filter is normalized to no filter;
the `sort_by`/`order` parameters only shape the unmodelled `ORDER BY`
clause.  A missing board or failed read access returns `[]`. -/
def list_tasks_by_board (s : DBState) (boardId : Nat) (userId : String)
    (statusFilter : Option String) : List Task :=
  let sf : Option String :=
    match statusFilter with
    | some f => if VALID_STATUSES.contains f then some f else none
    | none => none
  match s.boards.find? (fun b => b.id == boardId) with
  | none => []
  | some b =>
    if board_read_perm b userId then
      s.tasks.filter (fun t =>
        t.boardId == some boardId &&
          match sf with
          | some f => t.status == f
          | none => true)
    else []

/-- The all-zero status-count map `{status: 0 for status in VALID_STATUSES}`. -/
def zeroCounts : List (String × Nat) :=
  VALID_STATUSES.map (fun st => (st, 0))

/-- `get_task_counts_by_board` (database.py lines 192-237): a missing
board or failed read access returns the all-zero map; otherwise the
grouped counts over the zero map, i.e. a per-status count. -/
def get_task_counts_by_board (s : DBState) (boardId : Nat) (userId : String) :
    List (String × Nat) :=
  match s.boards.find? (fun b => b.id == boardId) with
  | none => zeroCounts
  | some b =>
    if board_read_perm b userId then
      VALID_STATUSES.map (fun st =>
        (st, s.tasks.countP (fun t => t.boardId == some boardId && t.status == st)))
    else zeroCounts

/-- `add_task` (database.py lines 459-505): validate title and status
before the connection opens, load the board, check the write permission
(owner, or public board and admin flag), then insert with the next row
id. -/
def add_task (s : DBState) (boardId : Nat) (userId title description status : String)
    (priority : Int) (dueDate : Option String) : Option Nat × DBState × Nat :=
  if isBlank title then (none, s, 0)
  else if status ∉ VALID_STATUSES then (none, s, 0)
  else
    match s.boards.find? (fun b => b.id == boardId) with
    | none => (none, s, 0)
    | some b =>
      if board_write_perm s b userId then
        (some s.nextTaskId,
         { s with
            tasks := s.tasks ++
              [⟨s.nextTaskId, some boardId, userId, title, description, status,
                priority, dueDate⟩],
            nextTaskId := s.nextTaskId + 1 },
         0)
      else (none, s, 0)

/-- The joined lookup used by the task mutators (database.py lines
94-99, 518-523, 574-579): `SELECT ... FROM tasks t JOIN boards b ON
t.board_id = b.id WHERE t.id = ?`.  A task with a NULL or dangling board
reference produces no joined row, i.e. reads as not found. -/
def findTaskBoard (s : DBState) (taskId : Nat) : Option (Task × Board) :=
  match s.tasks.find? (fun t => t.id == taskId) with
  | none => none
  | some t =>
    match t.boardId with
    | none => none
    | some bid =>
      match s.boards.find? (fun b => b.id == bid) with
      | none => none
      | some b => some (t, b)

/-- Task write/delete permission (database.py lines 109-113, 533-537,
589-593): task creator, board owner, or admin on a public board. -/
def task_write_perm (s : DBState) (t : Task) (b : Board) (userId : String) : Bool :=
  t.userId == userId || b.ownerId == userId ||
    (b.boardType == "public" && is_admin s userId)

/-- `update_task_status` (database.py lines 507-557): validate the status
before the connection opens, find the joined row, check the task write
permission, then set the status on the matching row. -/
def update_task_status (s : DBState) (taskId : Nat) (newStatus userId : String) :
    Bool × DBState × Nat :=
  if newStatus ∉ VALID_STATUSES then (false, s, 0)
  else
    match findTaskBoard s taskId with
    | none => (false, s, 0)
    | some (t, b) =>
      if task_write_perm s t b userId then
        (true,
         { s with tasks :=
             s.tasks.map (fun t2 =>
               if t2.id == taskId then { t2 with status := newStatus } else t2) },
         0)
      else (false, s, 0)

/-- The `**kwargs` dict accepted by `update_task`, as a record of
optional columns (a Python dict binds each key at most once). -/
structure TaskUpdate where
  title : Option String := none
  description : Option String := none
  status : Option String := none
  priority : Option Int := none
  dueDate : Option (Option String) := none
  userId : Option String := none
  boardId : Option (Option Nat) := none
deriving DecidableEq, Repr

/-- `not kwargs` test of `update_task`. -/
def TaskUpdate.isEmpty (k : TaskUpdate) : Bool :=
  k.title.isNone && k.description.isNone && k.status.isNone && k.priority.isNone &&
    k.dueDate.isNone && k.userId.isNone && k.boardId.isNone

/-- `'status' in kwargs and kwargs['status'] not in VALID_STATUSES`. -/
def TaskUpdate.badStatus (k : TaskUpdate) : Bool :=
  match k.status with
  | some v => !VALID_STATUSES.contains v
  | none => false

/-- The dynamic `SET` clause of `update_task`, applied to one row. -/
def applyTaskUpdate (k : TaskUpdate) (t : Task) : Task :=
  { t with
    title := k.title.getD t.title,
    description := k.description.getD t.description,
    status := k.status.getD t.status,
    priority := k.priority.getD t.priority,
    dueDate := k.dueDate.getD t.dueDate,
    userId := k.userId.getD t.userId,
    boardId := k.boardId.getD t.boardId }

/-- `update_task` (database.py lines 559-610): validate the status field
and non-emptiness of the kwargs before the connection opens, find the
joined row, check the task write permission, then apply the dynamic
`SET` clause.  Unlike every other write method, `update_task` has no
`finally: conn.close()`, so every path past `get_connection` leaves the
connection unclosed: the leak component is 1 there. -/
def update_task (s : DBState) (taskId : Nat) (userId : String)
    (kw : TaskUpdate) : Bool × DBState × Nat :=
  if kw.badStatus then (false, s, 0)
  else if kw.isEmpty then (false, s, 0)
  else
    match findTaskBoard s taskId with
    | none => (false, s, 1)
    | some (t, b) =>
      if task_write_perm s t b userId then
        (true,
         { s with tasks :=
             s.tasks.map (fun t2 =>
               if t2.id == taskId then applyTaskUpdate kw t2 else t2) },
         1)
      else (false, s, 1)

/-- `delete_task` (database.py lines 87-129): find the joined row, check
the task write permission, then `DELETE FROM tasks WHERE id = ?`. -/
def delete_task (s : DBState) (taskId : Nat) (userId : String) :
    Bool × DBState × Nat :=
  match findTaskBoard s taskId with
  | none => (false, s, 0)
  | some (t, b) =>
    if task_write_perm s t b userId then
      (true, { s with tasks := s.tasks.filter (fun t2 => t2.id != taskId) }, 0)
    else (false, s, 0)

/-- `list_all_boards` (database.py lines 612-639): admin gated; row order
is not modelled. -/
def list_all_boards (s : DBState) (adminId : String) : List Board :=
  if !is_admin s adminId then [] else s.boards

/-- One record of the per-user statistics built by `get_user_stats`. -/
structure UserStats where
  userId : String
  personalBoards : Nat
  publicBoards : Nat
  totalTasks : Nat
  taskStatus : List (String × Nat)
deriving DecidableEq, Repr

/-- `get_user_stats` (database.py lines 641-713): admin gated; for every
identity owning a board or a task, board counts by visibility, the task
count, and task counts by status (user-set order not modelled). -/
def get_user_stats (s : DBState) (adminId : String) :
    Option (List UserStats) :=
  if !is_admin s adminId then none
  else
    let allUsers : List String :=
      (s.boards.map (fun b => b.ownerId) ++ s.tasks.map (fun t => t.userId)).dedup
    some (allUsers.map (fun u =>
      { userId := u,
        personalBoards :=
          s.boards.countP (fun b => b.boardType == "personal" && b.ownerId == u),
        publicBoards :=
          s.boards.countP (fun b => b.boardType == "public" && b.ownerId == u),
        totalTasks := s.tasks.countP (fun t => t.userId == u),
        taskStatus := VALID_STATUSES.map (fun st =>
          (st, s.tasks.countP (fun t => t.userId == u && t.status == st))) }))

/-- One iteration of the migration loop (database.py lines 739-754):
insert a personal board named "Personal Board" for the user, then point
all of that user's NULL-board tasks at it. -/
def migrateUser (s : DBState) (u : String) : DBState :=
  { s with
    boards := s.boards ++
      [⟨s.nextBoardId, "Personal Board", "Migrated from legacy data", "personal", u⟩],
    nextBoardId := s.nextBoardId + 1,
    tasks := s.tasks.map (fun t =>
      if t.userId == u && t.boardId.isNone then { t with boardId := some s.nextBoardId }
      else t) }

/-- `SELECT DISTINCT user_id FROM tasks WHERE board_id IS NULL`
(database.py lines 730-734). -/
def orphanUsers (s : DBState) : List String :=
  ((s.tasks.filter (fun t => t.boardId.isNone)).map (fun t => t.userId)).dedup

/-- `migrate_legacy_data` (database.py lines 715-764): if no task has a
NULL board reference, succeed without touching the store; otherwise run
the per-user loop over the distinct owners of orphaned tasks. -/
def migrate_legacy_data (s : DBState) : Bool × DBState × Nat :=
  if s.tasks.countP (fun t => t.boardId.isNone) = 0 then (true, s, 0)
  else (true, (orphanUsers s).foldl migrateUser s, 0)

/-- The mutating operations of the façade, as one step type.  The
read-only operations (`list_*`, `get_*`, `is_admin`) are pure functions
of the state and never return a state. -/
inductive Op where
  | createBoard (name ownerId description boardType : String)
  | updateBoard (boardId : Nat) (userId : String) (kw : BoardUpdate)
  | deleteBoard (boardId : Nat) (userId : String)
  | addTask (boardId : Nat) (userId title description status : String)
      (priority : Int) (dueDate : Option String)
  | updateTaskStatus (taskId : Nat) (newStatus userId : String)
  | updateTask (taskId : Nat) (userId : String) (kw : TaskUpdate)
  | deleteTask (taskId : Nat) (userId : String)
  | setAdmin (userId : String) (isAdminFlag : Bool)
  | removeAdmin (userId : String)
  | migrateLegacyData
deriving DecidableEq, Repr

/-- Result of a mutating operation: a created id (`None` marks failure)
or a success flag. -/
inductive OpResult where
  | createdId (r : Option Nat)
  | flag (b : Bool)
deriving DecidableEq, Repr

/-- A denial/failure result: `None` from the creators, `False` from the
rest. -/
def isFailure : OpResult → Bool
  | .createdId r => r.isNone
  | .flag b => !b

/-- Dispatch one mutating operation. -/
def runOp (op : Op) (s : DBState) : OpResult × DBState :=
  match op with
  | .createBoard n o d bt =>
    let r := create_board s n o d bt; (.createdId r.1, r.2.1)
  | .updateBoard bid u kw =>
    let r := update_board s bid u kw; (.flag r.1, r.2.1)
  | .deleteBoard bid u =>
    let r := delete_board s bid u; (.flag r.1, r.2.1)
  | .addTask bid u ti d st p dd =>
    let r := add_task s bid u ti d st p dd; (.createdId r.1, r.2.1)
  | .updateTaskStatus tid st u =>
    let r := update_task_status s tid st u; (.flag r.1, r.2.1)
  | .updateTask tid u kw =>
    let r := update_task s tid u kw; (.flag r.1, r.2.1)
  | .deleteTask tid u =>
    let r := delete_task s tid u; (.flag r.1, r.2.1)
  | .setAdmin u f =>
    let r := set_admin s u f; (.flag r.1, r.2.1)
  | .removeAdmin u =>
    let r := remove_admin s u; (.flag r.1, r.2.1)
  | .migrateLegacyData =>
    let r := migrate_legacy_data s; (.flag r.1, r.2.1)

/-- Every stored task status is one of the three valid values. -/
def statusInv (s : DBState) : Prop :=
  ∀ t ∈ s.tasks, t.status ∈ VALID_STATUSES

instance (s : DBState) : Decidable (statusInv s) := by
  unfold statusInv; infer_instance

/-- Every stored board name is non-empty after trimming whitespace. -/
def nameInv (s : DBState) : Prop :=
  ∀ b ∈ s.boards, isBlank b.name = false

instance (s : DBState) : Decidable (nameInv s) := by
  unfold nameInv; infer_instance

/-- Pointwise relation between a task row before migration and the same
row after the per-user migration loop ran for the users of `l`, where
`newB` lists the boards the loop created: an orphaned row of a user in
`l` is repointed at that user's created board; every other row is
untouched. -/
def migratedTask (newB : List Board) (l : List String) (t t2 : Task) : Prop :=
  (t.boardId.isNone = true → t.userId ∈ l →
    ∃ b ∈ newB, b.ownerId = t.userId ∧ t2 = { t with boardId := some b.id }) ∧
  (¬(t.boardId.isNone = true ∧ t.userId ∈ l) → t2 = t)

/-- Recognizer for the one operation that can break the board-name
invariant. -/
def Op.isUpdateBoard : Op → Bool
  | .updateBoard _ _ _ => true
  | _ => false

/-- No row of `admin_roles` is keyed by `u`. -/
def noAdminRow (s : DBState) (u : String) : Prop :=
  ∀ r ∈ s.adminRoles, r.1 ≠ u

instance (s : DBState) (u : String) : Decidable (noAdminRow s u) := by
  unfold noAdminRow; infer_instance

/-- Whether an operation is a `set_admin`/`remove_admin` call for the
given identity. -/
def Op.touchesAdmin : Op → String → Bool
  | .setAdmin v _, u => v == u
  | .removeAdmin v, u => v == u
  | _, _ => false

/-! ### Example stores used as concrete inputs -/

/-- A store with one personal board owned by alice carrying one task. -/
def exSt1 : DBState :=
  { boards := [⟨1, "B", "", "personal", "alice"⟩],
    tasks := [⟨1, some 1, "alice", "T", "", "todo", 0, none⟩],
    adminRoles := [], nextBoardId := 2, nextTaskId := 2 }

/-- A store with one public board owned by alice and no admin rows. -/
def exSt2 : DBState :=
  { boards := [⟨1, "P", "", "public", "alice"⟩], tasks := [],
    adminRoles := [], nextBoardId := 2, nextTaskId := 1 }

/-- A store with boards, a task and two admin rows, one holding a false
flag. -/
def exSt7 : DBState :=
  { boards := [⟨1, "B", "", "personal", "alice"⟩, ⟨2, "P", "", "public", "bob"⟩],
    tasks := [⟨1, some 1, "alice", "T", "", "todo", 0, none⟩],
    adminRoles := [("mallory", false), ("root", true)],
    nextBoardId := 3, nextTaskId := 2 }

/-- A legacy store: users u1 and u2 each own tasks with no board
reference. -/
def exSt9 : DBState :=
  { boards := [],
    tasks := [⟨1, none, "u1", "a", "", "todo", 0, none⟩,
              ⟨2, none, "u2", "b", "", "doing", 0, none⟩,
              ⟨3, none, "u1", "c", "", "done", 0, none⟩],
    adminRoles := [], nextBoardId := 1, nextTaskId := 4 }

/-! ### Helper lemmas: which tables each operation can touch -/

lemma create_board_tasks (s : DBState) (n o d bt : String) :
    (create_board s n o d bt).2.1.tasks = s.tasks := by
  unfold create_board; (repeat' split) <;> rfl

lemma create_board_adminRoles (s : DBState) (n o d bt : String) :
    (create_board s n o d bt).2.1.adminRoles = s.adminRoles := by
  unfold create_board; (repeat' split) <;> rfl

lemma update_board_tasks (s : DBState) (bid : Nat) (u : String) (kw : BoardUpdate) :
    (update_board s bid u kw).2.1.tasks = s.tasks := by
  unfold update_board; (repeat' split) <;> rfl

lemma update_board_adminRoles (s : DBState) (bid : Nat) (u : String) (kw : BoardUpdate) :
    (update_board s bid u kw).2.1.adminRoles = s.adminRoles := by
  unfold update_board; (repeat' split) <;> rfl

lemma delete_board_tasks (s : DBState) (bid : Nat) (u : String) :
    (delete_board s bid u).2.1.tasks = s.tasks := by
  unfold delete_board; (repeat' split) <;> rfl

lemma delete_board_adminRoles (s : DBState) (bid : Nat) (u : String) :
    (delete_board s bid u).2.1.adminRoles = s.adminRoles := by
  unfold delete_board; (repeat' split) <;> rfl

lemma add_task_boards (s : DBState) (bid : Nat) (u ti d st : String) (p : Int)
    (dd : Option String) : (add_task s bid u ti d st p dd).2.1.boards = s.boards := by
  unfold add_task; (repeat' split) <;> rfl

lemma add_task_adminRoles (s : DBState) (bid : Nat) (u ti d st : String) (p : Int)
    (dd : Option String) : (add_task s bid u ti d st p dd).2.1.adminRoles = s.adminRoles := by
  unfold add_task; (repeat' split) <;> rfl

lemma update_task_status_boards (s : DBState) (tid : Nat) (st u : String) :
    (update_task_status s tid st u).2.1.boards = s.boards := by
  unfold update_task_status; (repeat' split) <;> rfl

lemma update_task_status_adminRoles (s : DBState) (tid : Nat) (st u : String) :
    (update_task_status s tid st u).2.1.adminRoles = s.adminRoles := by
  unfold update_task_status; (repeat' split) <;> rfl

lemma update_task_boards (s : DBState) (tid : Nat) (u : String) (kw : TaskUpdate) :
    (update_task s tid u kw).2.1.boards = s.boards := by
  unfold update_task; (repeat' split) <;> rfl

lemma update_task_adminRoles (s : DBState) (tid : Nat) (u : String) (kw : TaskUpdate) :
    (update_task s tid u kw).2.1.adminRoles = s.adminRoles := by
  unfold update_task; (repeat' split) <;> rfl

lemma delete_task_boards (s : DBState) (tid : Nat) (u : String) :
    (delete_task s tid u).2.1.boards = s.boards := by
  unfold delete_task; (repeat' split) <;> rfl

lemma delete_task_adminRoles (s : DBState) (tid : Nat) (u : String) :
    (delete_task s tid u).2.1.adminRoles = s.adminRoles := by
  unfold delete_task; (repeat' split) <;> rfl

lemma set_admin_boards (s : DBState) (u : String) (f : Bool) :
    (set_admin s u f).2.1.boards = s.boards := rfl

lemma set_admin_tasks (s : DBState) (u : String) (f : Bool) :
    (set_admin s u f).2.1.tasks = s.tasks := rfl

lemma foldl_migrateUser_adminRoles (l : List String) :
    ∀ s : DBState, (l.foldl migrateUser s).adminRoles = s.adminRoles := by
  induction l with
  | nil => intro s; rfl
  | cons u l ih => intro s; rw [List.foldl_cons, ih]; rfl

lemma migrate_adminRoles (s : DBState) :
    (migrate_legacy_data s).2.1.adminRoles = s.adminRoles := by
  unfold migrate_legacy_data
  split
  · rfl
  · exact foldl_migrateUser_adminRoles _ s

/-- `create_board` either fails changing nothing, or the name was not
blank and a validated row is appended. -/
lemma create_board_eq (s : DBState) (n o d bt : String) :
    create_board s n o d bt = (none, s, 0) ∨
    (isBlank n = false ∧ bt ∈ BOARD_TYPES ∧
     create_board s n o d bt =
       (some s.nextBoardId,
        { s with boards := s.boards ++ [⟨s.nextBoardId, n, d, bt, o⟩],
                 nextBoardId := s.nextBoardId + 1 }, 0)) := by
  unfold create_board
  split_ifs with h1 h2
  · exact Or.inl rfl
  · exact Or.inr ⟨by simpa using h1, h2, rfl⟩
  · exact Or.inl rfl

/-- `update_board` either fails changing nothing, or the `board_type`
field was valid and the matching row is rewritten by the field
mapping. -/
lemma update_board_eq (s : DBState) (bid : Nat) (u : String) (kw : BoardUpdate) :
    update_board s bid u kw = (false, s, 0) ∨
    (kw.badType = false ∧
     update_board s bid u kw =
       (true,
        { s with boards := s.boards.map (fun b2 =>
            if b2.id == bid then applyBoardUpdate kw b2 else b2) }, 0)) := by
  unfold update_board
  split_ifs with h1 h2
  · exact Or.inl rfl
  · exact Or.inl rfl
  · rcases hf : s.boards.find? (fun b => b.id == bid) with _ | b
    · exact Or.inl (by simp only [hf])
    · by_cases hp : board_write_perm s b u = true
      · exact Or.inr ⟨by simpa using h1, by simp only [hf, hp, if_true]⟩
      · exact Or.inl (by simp only [hf]; rw [if_neg hp])

/-- `delete_board` either fails changing nothing, or removes exactly the
rows of the target board id from the boards table, leaving the tasks
table alone (no cascade at runtime). -/
lemma delete_board_eq (s : DBState) (bid : Nat) (u : String) :
    delete_board s bid u = (false, s, 0) ∨
    delete_board s bid u =
      (true, { s with boards := s.boards.filter (fun b2 => b2.id != bid) }, 0) := by
  unfold delete_board
  rcases hf : s.boards.find? (fun b => b.id == bid) with _ | b
  · exact Or.inl (by simp only [hf])
  · by_cases hp : board_write_perm s b u = true
    · exact Or.inr (by simp only [hf, hp, if_true])
    · exact Or.inl (by simp only [hf]; rw [if_neg hp])

/-- `add_task` either fails changing nothing, or the title and status
were valid and the new row is appended. -/
lemma add_task_eq (s : DBState) (bid : Nat) (u ti d st : String) (p : Int)
    (dd : Option String) :
    add_task s bid u ti d st p dd = (none, s, 0) ∨
    (isBlank ti = false ∧ st ∈ VALID_STATUSES ∧
     add_task s bid u ti d st p dd =
       (some s.nextTaskId,
        { s with
           tasks := s.tasks ++ [⟨s.nextTaskId, some bid, u, ti, d, st, p, dd⟩],
           nextTaskId := s.nextTaskId + 1 }, 0)) := by
  unfold add_task
  split_ifs with h1 h2
  · exact Or.inl rfl
  · rcases hf : s.boards.find? (fun b => b.id == bid) with _ | b
    · exact Or.inl (by simp only [hf])
    · by_cases hp : board_write_perm s b u = true
      · exact Or.inr ⟨by simpa using h1, h2, by simp only [hf, hp, if_true]⟩
      · exact Or.inl (by simp only [hf]; rw [if_neg hp])
  · exact Or.inl rfl

/-- `update_task_status` either fails changing nothing, or the new
status was valid and is written to the matching row. -/
lemma update_task_status_eq (s : DBState) (tid : Nat) (st u : String) :
    update_task_status s tid st u = (false, s, 0) ∨
    (st ∈ VALID_STATUSES ∧
     update_task_status s tid st u =
       (true,
        { s with tasks := s.tasks.map (fun t2 =>
            if t2.id == tid then { t2 with status := st } else t2) }, 0)) := by
  unfold update_task_status
  split_ifs with h1
  · rcases hf : findTaskBoard s tid with _ | tb
    · exact Or.inl (by simp only [hf])
    · obtain ⟨t, b⟩ := tb
      by_cases hp : task_write_perm s t b u = true
      · refine Or.inr ⟨h1, ?_⟩
        simp only [hf]
        rw [if_pos hp]
      · exact Or.inl (by simp only [hf]; rw [if_neg hp])
  · exact Or.inl rfl

/-- `update_task` either fails with the store unchanged, or the status
field was valid and the field mapping is applied to the matching row. -/
lemma update_task_eq (s : DBState) (tid : Nat) (u : String) (kw : TaskUpdate) :
    ((update_task s tid u kw).1 = false ∧ (update_task s tid u kw).2.1 = s) ∨
    (kw.badStatus = false ∧
     (update_task s tid u kw).1 = true ∧
     (update_task s tid u kw).2.1 =
       { s with tasks := s.tasks.map (fun t2 =>
           if t2.id == tid then applyTaskUpdate kw t2 else t2) }) := by
  unfold update_task
  split_ifs with h1 h2
  · exact Or.inl ⟨rfl, rfl⟩
  · exact Or.inl ⟨rfl, rfl⟩
  · rcases hf : findTaskBoard s tid with _ | tb
    · refine Or.inl ⟨?_, ?_⟩ <;> simp only [hf]
    · obtain ⟨t, b⟩ := tb
      by_cases hp : task_write_perm s t b u = true
      · refine Or.inr ⟨by simpa using h1, ?_, ?_⟩ <;>
          (simp only [hf]; rw [if_pos hp])
      · refine Or.inl ⟨?_, ?_⟩ <;> (simp only [hf]; rw [if_neg hp])

/-- `delete_task` either fails changing nothing, or removes exactly the
rows of the target task id. -/
lemma delete_task_eq (s : DBState) (tid : Nat) (u : String) :
    delete_task s tid u = (false, s, 0) ∨
    delete_task s tid u =
      (true, { s with tasks := s.tasks.filter (fun t2 => t2.id != tid) }, 0) := by
  unfold delete_task
  rcases hf : findTaskBoard s tid with _ | tb
  · exact Or.inl (by simp only [hf])
  · obtain ⟨t, b⟩ := tb
    by_cases hp : task_write_perm s t b u = true
    · refine Or.inr ?_
      simp only [hf]
      rw [if_pos hp]
    · exact Or.inl (by simp only [hf]; rw [if_neg hp])

/-- Two states with the same tasks table satisfy the same status
invariant. -/
lemma statusInv_congr {s1 s2 : DBState} (h : s2.tasks = s1.tasks)
    (h1 : statusInv s1) : statusInv s2 := fun t ht => h1 t (h ▸ ht)

/-- Two states with the same boards table satisfy the same name
invariant. -/
lemma nameInv_congr {s1 s2 : DBState} (h : s2.boards = s1.boards)
    (h1 : nameInv s1) : nameInv s2 := fun b hb => h1 b (h ▸ hb)

lemma statusInv_foldl_migrateUser (l : List String) :
    ∀ s : DBState, statusInv s → statusInv (l.foldl migrateUser s) := by
  induction l with
  | nil => exact fun s h => h
  | cons u l ih =>
    intro s h
    rw [List.foldl_cons]
    apply ih
    intro t ht
    simp only [migrateUser, List.mem_map] at ht
    obtain ⟨t0, ht0, rfl⟩ := ht
    split <;> simpa using h t0 ht0

lemma nameInv_foldl_migrateUser (l : List String) :
    ∀ s : DBState, nameInv s → nameInv (l.foldl migrateUser s) := by
  induction l with
  | nil => exact fun s h => h
  | cons u l ih =>
    intro s h
    rw [List.foldl_cons]
    apply ih
    intro b hb
    simp only [migrateUser, List.mem_append, List.mem_singleton] at hb
    rcases hb with hb | rfl
    · exact h b hb
    · show isBlank "Personal Board" = false
      decide

/-! ### Claim theorems -/

/-- C1: the claim says a successful `delete_board` removes every task
referencing the deleted board.  At this concrete store, deleting board 1
returns `True` and empties the boards table, yet the task still
references board 1: with `get_connection` never enabling
`PRAGMA foreign_keys`, the declared `ON DELETE CASCADE` does not fire,
contradicting the code's own comment "cascade will delete all tasks"
(database.py line 341) and the schema declaration (line 48). -/
theorem delete_board_leaves_orphan_task :
    (delete_board exSt1 1 "alice").1 = true ∧
    (delete_board exSt1 1 "alice").2.1.boards = [] ∧
    (delete_board exSt1 1 "alice").2.1.tasks =
      [⟨1, some 1, "alice", "T", "", "todo", 0, none⟩] := by
  decide

/-- C2 counterexample: bob has board read access to public board 1 (he is
not the owner, but visibility is public) and calls `add_task` with a
non-empty title and a valid status, yet the call returns the failure
marker `None` and inserts nothing: `add_task` checks the board *write*
permission (owner, or public and admin), not read access. -/
theorem add_task_read_access_denied :
    board_read_perm ⟨1, "P", "", "public", "alice"⟩ "bob" = true ∧
    is_admin exSt2 "bob" = false ∧
    add_task exSt2 1 "bob" "T" "" "todo" 0 none = (none, exSt2, 0) := by
  decide

/-- C2 amended: for an existing board, `add_task` with a non-empty title
and a valid status succeeds, inserting the task and returning the fresh
id, exactly when the requester passes the board *write* permission: the
requester owns the board, or the board is public and the requester holds
the admin flag. -/
theorem add_task_write_perm_spec (s : DBState) (bid : Nat)
    (u ti d st : String) (p : Int) (dd : Option String) (b : Board)
    (hf : s.boards.find? (fun b2 => b2.id == bid) = some b)
    (hti : isBlank ti = false) (hst : st ∈ VALID_STATUSES)
    (hp : board_write_perm s b u = true) :
    add_task s bid u ti d st p dd =
      (some s.nextTaskId,
       { s with
          tasks := s.tasks ++ [⟨s.nextTaskId, some bid, u, ti, d, st, p, dd⟩],
          nextTaskId := s.nextTaskId + 1 },
       0) := by
  unfold add_task
  simp [hf, hti, hst, hp]

/-- C2 amended, witness: the owner of personal board 1 adds a task. -/
theorem add_task_write_perm_spec_witness :
    add_task exSt1 1 "alice" "New" "" "doing" 1 none =
      (some exSt1.nextTaskId,
       { exSt1 with
          tasks := exSt1.tasks ++
            [⟨exSt1.nextTaskId, some 1, "alice", "New", "", "doing", 1, none⟩],
          nextTaskId := exSt1.nextTaskId + 1 },
       0) :=
  add_task_write_perm_spec exSt1 1 "alice" "New" "" "doing" 1 none
    ⟨1, "B", "", "personal", "alice"⟩ (by decide) (by decide) (by decide) (by decide)

/-- C5: no operation partially applies a change and then fails: whenever
a mutating operation returns its denial/failure value (validation
failure, target not found, or permission denied), the store state after
the call is exactly the store state before it.  The read-only operations
are pure functions of the state, so they cannot mutate by
construction. -/
theorem failed_op_preserves_state (op : Op) (s : DBState)
    (h : isFailure (runOp op s).1 = true) : (runOp op s).2 = s := by
  cases op with
  | createBoard n o d bt =>
    have h2 : (create_board s n o d bt).1.isNone = true := h
    show (create_board s n o d bt).2.1 = s
    rcases create_board_eq s n o d bt with heq | ⟨_, _, heq⟩ <;> rw [heq] at h2 ⊢
    simp at h2
  | updateBoard bid u kw =>
    have h2 : (!(update_board s bid u kw).1) = true := h
    show (update_board s bid u kw).2.1 = s
    rcases update_board_eq s bid u kw with heq | ⟨_, heq⟩ <;> rw [heq] at h2 ⊢
    simp at h2
  | deleteBoard bid u =>
    have h2 : (!(delete_board s bid u).1) = true := h
    show (delete_board s bid u).2.1 = s
    rcases delete_board_eq s bid u with heq | heq <;> rw [heq] at h2 ⊢
    simp at h2
  | addTask bid u ti d st p dd =>
    have h2 : (add_task s bid u ti d st p dd).1.isNone = true := h
    show (add_task s bid u ti d st p dd).2.1 = s
    rcases add_task_eq s bid u ti d st p dd with heq | ⟨_, _, heq⟩ <;> rw [heq] at h2 ⊢
    simp at h2
  | updateTaskStatus tid st u =>
    have h2 : (!(update_task_status s tid st u).1) = true := h
    show (update_task_status s tid st u).2.1 = s
    rcases update_task_status_eq s tid st u with heq | ⟨_, heq⟩ <;> rw [heq] at h2 ⊢
    simp at h2
  | updateTask tid u kw =>
    have h2 : (!(update_task s tid u kw).1) = true := h
    show (update_task s tid u kw).2.1 = s
    rcases update_task_eq s tid u kw with ⟨_, hst⟩ | ⟨_, h1, _⟩
    · exact hst
    · rw [h1] at h2; simp at h2
  | deleteTask tid u =>
    have h2 : (!(delete_task s tid u).1) = true := h
    show (delete_task s tid u).2.1 = s
    rcases delete_task_eq s tid u with heq | heq <;> rw [heq] at h2 ⊢
    simp at h2
  | setAdmin u f =>
    have h2 : (!(set_admin s u f).1) = true := h
    simp [set_admin] at h2
  | removeAdmin u =>
    have h2 : (!(set_admin s u false).1) = true := h
    simp [set_admin] at h2
  | migrateLegacyData =>
    exfalso
    have h2 : (!(migrate_legacy_data s).1) = true := h
    unfold migrate_legacy_data at h2
    split_ifs at h2 <;> simp at h2

/-- C4: every stored task status stays inside `VALID_STATUSES` under
every mutating operation, and an attempt to set any other status value
through `add_task`, `update_task_status` or `update_task` leaves the
store unchanged and returns the denial value. -/
theorem status_always_valid (s : DBState) (op : Op) (bid tid : Nat)
    (u ti d st : String) (p : Int) (dd : Option String) (kw : TaskUpdate) :
    (statusInv s → statusInv (runOp op s).2) ∧
    (st ∉ VALID_STATUSES → add_task s bid u ti d st p dd = (none, s, 0)) ∧
    (st ∉ VALID_STATUSES → update_task_status s tid st u = (false, s, 0)) ∧
    (kw.status = some st → st ∉ VALID_STATUSES →
      update_task s tid u kw = (false, s, 0)) := by
  refine ⟨?_, ?_, ?_, ?_⟩
  · intro hInv
    cases op with
    | createBoard n2 o2 d2 bt2 =>
      exact statusInv_congr (create_board_tasks s n2 o2 d2 bt2) hInv
    | updateBoard bid2 u2 kw2 =>
      exact statusInv_congr (update_board_tasks s bid2 u2 kw2) hInv
    | deleteBoard bid2 u2 =>
      exact statusInv_congr (delete_board_tasks s bid2 u2) hInv
    | setAdmin u2 f2 => exact statusInv_congr (set_admin_tasks s u2 f2) hInv
    | removeAdmin u2 => exact statusInv_congr (set_admin_tasks s u2 false) hInv
    | addTask bid2 u2 ti2 d2 st2 p2 dd2 =>
      show statusInv (add_task s bid2 u2 ti2 d2 st2 p2 dd2).2.1
      rcases add_task_eq s bid2 u2 ti2 d2 st2 p2 dd2 with heq | ⟨_, hstv, heq⟩ <;>
        rw [heq]
      · exact hInv
      · intro t ht
        simp only [List.mem_append, List.mem_singleton] at ht
        rcases ht with ht | rfl
        · exact hInv t ht
        · exact hstv
    | updateTaskStatus tid2 st2 u2 =>
      show statusInv (update_task_status s tid2 st2 u2).2.1
      rcases update_task_status_eq s tid2 st2 u2 with heq | ⟨hstv, heq⟩ <;> rw [heq]
      · exact hInv
      · intro t ht
        simp only [List.mem_map] at ht
        obtain ⟨t0, ht0, rfl⟩ := ht
        split_ifs
        · exact hstv
        · exact hInv t0 ht0
    | updateTask tid2 u2 kw2 =>
      show statusInv (update_task s tid2 u2 kw2).2.1
      rcases update_task_eq s tid2 u2 kw2 with ⟨_, hstate⟩ | ⟨hbad, _, hstate⟩ <;>
        rw [hstate]
      · exact hInv
      · intro t ht
        simp only [List.mem_map] at ht
        obtain ⟨t0, ht0, rfl⟩ := ht
        split_ifs
        · show (applyTaskUpdate kw2 t0).status ∈ VALID_STATUSES
          unfold applyTaskUpdate
          rcases hks : kw2.status with _ | v
          · simpa using hInv t0 ht0
          · simp only [Option.getD_some]
            unfold TaskUpdate.badStatus at hbad
            rw [hks] at hbad
            simpa using hbad
        · exact hInv t0 ht0
    | deleteTask tid2 u2 =>
      show statusInv (delete_task s tid2 u2).2.1
      rcases delete_task_eq s tid2 u2 with heq | heq <;> rw [heq]
      · exact hInv
      · intro t ht
        exact hInv t (List.mem_filter.mp ht).1
    | migrateLegacyData =>
      show statusInv (migrate_legacy_data s).2.1
      unfold migrate_legacy_data
      split
      · exact hInv
      · exact statusInv_foldl_migrateUser _ s hInv
  · intro hst
    unfold add_task
    split_ifs with h1 <;> rfl
  · intro hst
    unfold update_task_status
    rw [if_pos hst]
  · intro hks hst
    have hbad : kw.badStatus = true := by
      unfold TaskUpdate.badStatus
      rw [hks]
      simpa using hst
    unfold update_task
    rw [if_pos hbad]

/-- C4 witness: starting from a valid store, a status move to "done"
keeps the invariant, and each of the three mutators rejects the invalid
status value "blocked" without touching the store. -/
theorem status_always_valid_witness :
    statusInv (runOp (.updateTaskStatus 1 "done" "alice") exSt1).2 ∧
    add_task exSt1 1 "alice" "T" "" "blocked" 0 none = (none, exSt1, 0) ∧
    update_task_status exSt1 1 "blocked" "alice" = (false, exSt1, 0) ∧
    update_task exSt1 1 "alice" { status := some "blocked" } = (false, exSt1, 0) :=
  ⟨(status_always_valid exSt1 (.updateTaskStatus 1 "done" "alice") 1 1 "alice" "T" ""
      "blocked" 0 none { status := some "blocked" }).1 (by decide),
   (status_always_valid exSt1 (.updateTaskStatus 1 "done" "alice") 1 1 "alice" "T" ""
      "blocked" 0 none { status := some "blocked" }).2.1 (by decide),
   (status_always_valid exSt1 (.updateTaskStatus 1 "done" "alice") 1 1 "alice" "T" ""
      "blocked" 0 none { status := some "blocked" }).2.2.1 (by decide),
   (status_always_valid exSt1 (.updateTaskStatus 1 "done" "alice") 1 1 "alice" "T" ""
      "blocked" 0 none { status := some "blocked" }).2.2.2 rfl (by decide)⟩

/-- C5 witness: deleting a board that does not exist fails and leaves
the concrete store untouched. -/
theorem failed_op_preserves_state_witness :
    isFailure (runOp (.deleteBoard 99 "eve") exSt7).1 = true ∧
    (runOp (.deleteBoard 99 "eve") exSt7).2 = exSt7 :=
  ⟨by decide, failed_op_preserves_state (.deleteBoard 99 "eve") exSt7 (by decide)⟩

/-- C3 counterexample: the claim says every operation preserves the
non-empty-name invariant; but `update_board` never validates the `name`
field, so the owner setting `name` to the empty string succeeds and
leaves board 1 with an empty name. -/
theorem update_board_can_blank_name :
    nameInv exSt1 ∧
    (update_board exSt1 1 "alice" { name := some "" }).1 = true ∧
    (update_board exSt1 1 "alice" { name := some "" }).2.1.boards =
      [⟨1, "", "", "personal", "alice"⟩] ∧
    ¬ nameInv (update_board exSt1 1 "alice" { name := some "" }).2.1 := by
  decide

/-- C3 amended: `create_board` rejects an empty or whitespace-only name
without creating a row, and every operation other than `update_board`
preserves the non-empty-name invariant; `update_board` preserves it only
when its field mapping does not set `name` to a blank string (it does
not validate that field). -/
theorem name_invariant_amended (s : DBState) (n o d bt : String) (op : Op)
    (bid : Nat) (u : String) (kw : BoardUpdate) :
    (isBlank n = true → create_board s n o d bt = (none, s, 0)) ∧
    (nameInv s → op.isUpdateBoard = false → nameInv (runOp op s).2) ∧
    (nameInv s → (∀ v, kw.name = some v → isBlank v = false) →
      nameInv (update_board s bid u kw).2.1) := by
  refine ⟨?_, ?_, ?_⟩
  · intro hb
    unfold create_board
    rw [if_pos hb]
  · intro hInv hOp
    cases op with
    | createBoard n2 o2 d2 bt2 =>
      show nameInv (create_board s n2 o2 d2 bt2).2.1
      rcases create_board_eq s n2 o2 d2 bt2 with heq | ⟨hn, _, heq⟩ <;> rw [heq]
      · exact hInv
      · intro b hb
        simp only [List.mem_append, List.mem_singleton] at hb
        rcases hb with hb | rfl
        · exact hInv b hb
        · exact hn
    | updateBoard bid2 u2 kw2 => simp [Op.isUpdateBoard] at hOp
    | deleteBoard bid2 u2 =>
      show nameInv (delete_board s bid2 u2).2.1
      rcases delete_board_eq s bid2 u2 with heq | heq <;> rw [heq]
      · exact hInv
      · intro b2 hb2
        exact hInv b2 (List.mem_filter.mp hb2).1
    | addTask bid2 u2 ti2 d2 st2 p2 dd2 =>
      exact nameInv_congr (add_task_boards s bid2 u2 ti2 d2 st2 p2 dd2) hInv
    | updateTaskStatus tid2 st2 u2 =>
      exact nameInv_congr (update_task_status_boards s tid2 st2 u2) hInv
    | updateTask tid2 u2 kw2 =>
      exact nameInv_congr (update_task_boards s tid2 u2 kw2) hInv
    | deleteTask tid2 u2 =>
      exact nameInv_congr (delete_task_boards s tid2 u2) hInv
    | setAdmin u2 f2 => exact nameInv_congr (set_admin_boards s u2 f2) hInv
    | removeAdmin u2 => exact nameInv_congr (set_admin_boards s u2 false) hInv
    | migrateLegacyData =>
      show nameInv (migrate_legacy_data s).2.1
      unfold migrate_legacy_data
      split
      · exact hInv
      · exact nameInv_foldl_migrateUser _ s hInv
  · intro hInv hkw
    rcases update_board_eq s bid u kw with heq | ⟨_, heq⟩ <;> rw [heq]
    · exact hInv
    · intro b2 hb2
      simp only [List.mem_map] at hb2
      obtain ⟨b0, hb0, rfl⟩ := hb2
      split_ifs with hid
      · unfold applyBoardUpdate
        rcases hkn : kw.name with _ | v
        · simpa [hkn] using hInv b0 hb0
        · simpa [hkn] using hkw v hkn
      · exact hInv b0 hb0

/-- C3 amended, witness: a blank name is rejected by `create_board`, a
board deletion preserves the invariant, and an `update_board` that does
not touch `name` preserves it. -/
theorem name_invariant_amended_witness :
    create_board exSt2 "   " "alice" "" "personal" = (none, exSt2, 0) ∧
    nameInv (runOp (.deleteBoard 1 "alice") exSt2).2 ∧
    nameInv (update_board exSt2 1 "alice" { description := some "d" }).2.1 :=
  ⟨(name_invariant_amended exSt2 "   " "alice" "" "personal"
      (.deleteBoard 1 "alice") 1 "alice" { description := some "d" }).1 (by decide),
   (name_invariant_amended exSt2 "   " "alice" "" "personal"
      (.deleteBoard 1 "alice") 1 "alice" { description := some "d" }).2.1
      (by decide) (by decide),
   (name_invariant_amended exSt2 "   " "alice" "" "personal"
      (.deleteBoard 1 "alice") 1 "alice" { description := some "d" }).2.2
      (by decide) (fun v hv => by cases hv)⟩

/-- C6: the claim says every write operation closes its connection on
every exit path.  `update_task` (database.py lines 559-610) is the one
write method with no `finally: conn.close()`: here a successful call and
a permission-denied call each leave one connection unclosed
(`leaked = 1`), while `delete_task` and `update_task_status` on the same
store close theirs (`leaked = 0`). -/
theorem update_task_leaks_its_connection :
    (update_task exSt1 1 "alice" { status := some "done" }).1 = true ∧
    (update_task exSt1 1 "alice" { status := some "done" }).2.2 = 1 ∧
    (update_task exSt1 1 "eve" { status := some "done" }).1 = false ∧
    (update_task exSt1 1 "eve" { status := some "done" }).2.2 = 1 ∧
    (delete_task exSt1 1 "alice").2.2 = 0 ∧
    (update_task_status exSt1 1 "done" "alice").2.2 = 0 := by
  decide

/-- C8: for every operation taking a target id, the caller-visible value
on a missing target equals the value on a permission denial: `False`
from the board/task mutators, the empty list from the task listing, the
all-zero count map, and the failure marker from `get_board_details` and
`add_task`.  Only the log line differs, so callers cannot probe
existence. -/
theorem notfound_equals_denied (s : DBState) (bid tid : Nat)
    (u ti d st : String) (p : Int) (dd sf : Option String)
    (kwT : TaskUpdate) (kwB : BoardUpdate) (t : Task) (b : Board) :
    (s.boards.find? (fun b2 => b2.id == bid) = none →
       (delete_board s bid u).1 = false ∧
       (update_board s bid u kwB).1 = false ∧
       (add_task s bid u ti d st p dd).1 = none ∧
       list_tasks_by_board s bid u sf = [] ∧
       get_task_counts_by_board s bid u = zeroCounts ∧
       get_board_details s bid u = none) ∧
    (findTaskBoard s tid = none →
       (delete_task s tid u).1 = false ∧
       (update_task s tid u kwT).1 = false) ∧
    (s.boards.find? (fun b2 => b2.id == bid) = some b →
       (board_write_perm s b u = false →
         (delete_board s bid u).1 = false ∧
         (update_board s bid u kwB).1 = false ∧
         (add_task s bid u ti d st p dd).1 = none) ∧
       (board_read_perm b u = false →
         list_tasks_by_board s bid u sf = [] ∧
         get_task_counts_by_board s bid u = zeroCounts ∧
         get_board_details s bid u = none)) ∧
    (findTaskBoard s tid = some (t, b) →
       task_write_perm s t b u = false →
       (delete_task s tid u).1 = false ∧
       (update_task s tid u kwT).1 = false) := by
  refine ⟨?_, ?_, ?_, ?_⟩
  · intro hf
    refine ⟨?_, ?_, ?_, ?_, ?_, ?_⟩
    · unfold delete_board; rw [hf]
    · unfold update_board; split_ifs <;> try rfl
      rw [hf]
    · unfold add_task; split_ifs <;> try rfl
      rw [hf]
    · unfold list_tasks_by_board; rw [hf]
    · unfold get_task_counts_by_board; rw [hf]
    · unfold get_board_details; rw [hf]
  · intro hft
    refine ⟨?_, ?_⟩
    · unfold delete_task; rw [hft]
    · unfold update_task; split_ifs <;> try rfl
      rw [hft]
  · intro hf
    refine ⟨fun hp => ⟨?_, ?_, ?_⟩, fun hp => ⟨?_, ?_, ?_⟩⟩
    · unfold delete_board
      simp only [hf]
      rw [if_neg (by simp [hp])]
    · unfold update_board
      split_ifs <;> try rfl
      simp only [hf]
      rw [if_neg (by simp [hp])]
    · unfold add_task
      split_ifs <;> try rfl
      simp only [hf]
      rw [if_neg (by simp [hp])]
    · unfold list_tasks_by_board
      simp only [hf]
      rw [if_neg (by simp [hp])]
    · unfold get_task_counts_by_board
      simp only [hf]
      rw [if_neg (by simp [hp])]
    · unfold get_board_details
      simp only [hf]
      rw [if_neg (by simp [hp])]
  · intro hft hp
    refine ⟨?_, ?_⟩
    · unfold delete_task
      simp only [hft]
      rw [if_neg (by simp [hp])]
    · unfold update_task
      split_ifs <;> try rfl
      simp only [hft]
      rw [if_neg (by simp [hp])]

/-- C8 witness: on a concrete store, a non-owner without the admin flag
and a missing id get the same returned values from `delete_board` and
`delete_task`. -/
theorem notfound_equals_denied_witness :
    (delete_board exSt1 99 "eve").1 = false ∧
    (delete_board exSt1 1 "eve").1 = false ∧
    (delete_task exSt1 99 "eve").1 = false ∧
    (delete_task exSt1 1 "eve").1 = false :=
  ⟨((notfound_equals_denied exSt1 99 99 "eve" "T" "" "todo" 0 none none
      {} {} ⟨1, some 1, "alice", "T", "", "todo", 0, none⟩
      ⟨1, "B", "", "personal", "alice"⟩).1 (by decide)).1,
   (((notfound_equals_denied exSt1 1 1 "eve" "T" "" "todo" 0 none none
      {} {} ⟨1, some 1, "alice", "T", "", "todo", 0, none⟩
      ⟨1, "B", "", "personal", "alice"⟩).2.2.1 (by decide)).1 (by decide)).1,
   ((notfound_equals_denied exSt1 99 99 "eve" "T" "" "todo" 0 none none
      {} {} ⟨1, some 1, "alice", "T", "", "todo", 0, none⟩
      ⟨1, "B", "", "personal", "alice"⟩).2.1 (by decide)).1,
   ((notfound_equals_denied exSt1 1 1 "eve" "T" "" "todo" 0 none none
      {} {} ⟨1, some 1, "alice", "T", "", "todo", 0, none⟩
      ⟨1, "B", "", "personal", "alice"⟩).2.2.2 (by decide) (by decide)).1⟩

/-- After `set_admin`, the looked-up flag of that user is exactly the
value just written. -/
lemma is_admin_set_admin (s : DBState) (u : String) (f : Bool) :
    is_admin (set_admin s u f).2.1 u = f := by
  unfold is_admin set_admin
  simp only [List.find?_append]
  have h1 : (s.adminRoles.filter (fun r => r.1 != u)).find? (fun r => r.1 == u) = none := by
    refine List.find?_eq_none.mpr ?_
    intro r hr
    have h2 := (List.mem_filter.mp hr).2
    simp only [bne_iff_ne, ne_eq] at h2
    simpa using h2
  rw [h1]
  simp

lemma noAdminRow_congr {s1 s2 : DBState} {u : String}
    (h : s2.adminRoles = s1.adminRoles) (h1 : noAdminRow s1 u) :
    noAdminRow s2 u := fun r hr => h1 r (h ▸ hr)

/-- C10: the `admin_roles` table is an upsert keyed by identity: a
`set_admin` keeps the keys duplicate-free, the most recently written
value is the one `is_admin` reads (last write wins), `remove_admin` is
literally `set_admin` with `False`, and an identity no `set_admin` call
ever touched has no row and never reads as admin. -/
theorem admin_roles_upsert_spec (s : DBState) (u : String) (f f2 : Bool) (op : Op) :
    ((s.adminRoles.map Prod.fst).Nodup →
      (((set_admin s u f).2.1).adminRoles.map Prod.fst).Nodup) ∧
    is_admin (set_admin s u f).2.1 u = f ∧
    is_admin (set_admin (set_admin s u f).2.1 u f2).2.1 u = f2 ∧
    remove_admin s u = set_admin s u false ∧
    (noAdminRow s u → is_admin s u = false) ∧
    (noAdminRow s u → op.touchesAdmin u = false → noAdminRow (runOp op s).2 u) := by
  refine ⟨?_, is_admin_set_admin s u f, is_admin_set_admin _ u f2, rfl, ?_, ?_⟩
  · intro hnd
    show ((s.adminRoles.filter (fun r => r.1 != u) ++ [(u, f)]).map Prod.fst).Nodup
    rw [List.map_append]
    refine List.nodup_append.mpr ⟨?_, ?_, ?_⟩
    · exact hnd.sublist ((s.adminRoles.filter_sublist).map _)
    · simp
    · intro a ha hb
      simp only [List.map_cons, List.map_nil, List.mem_singleton] at hb
      subst hb
      simp only [List.mem_map] at ha
      obtain ⟨r, hr, hru⟩ := ha
      have h2 := (List.mem_filter.mp hr).2
      simp only [bne_iff_ne, ne_eq] at h2
      exact h2 hru
  · intro hno
    unfold is_admin
    rw [List.find?_eq_none.mpr (fun r hr => by simpa using hno r hr)]
  · intro hno hT
    cases op with
    | setAdmin v f3 =>
      have hvu : v ≠ u := by simpa [Op.touchesAdmin] using hT
      show noAdminRow (set_admin s v f3).2.1 u
      intro r hr
      simp only [set_admin, List.mem_append, List.mem_singleton] at hr
      rcases hr with hr | rfl
      · exact hno r (List.mem_filter.mp hr).1
      · exact hvu
    | removeAdmin v =>
      have hvu : v ≠ u := by simpa [Op.touchesAdmin] using hT
      show noAdminRow (set_admin s v false).2.1 u
      intro r hr
      simp only [set_admin, List.mem_append, List.mem_singleton] at hr
      rcases hr with hr | rfl
      · exact hno r (List.mem_filter.mp hr).1
      · exact hvu
    | createBoard n o d bt =>
      exact noAdminRow_congr (create_board_adminRoles s n o d bt) hno
    | updateBoard bid u2 kw =>
      exact noAdminRow_congr (update_board_adminRoles s bid u2 kw) hno
    | deleteBoard bid u2 =>
      exact noAdminRow_congr (delete_board_adminRoles s bid u2) hno
    | addTask bid u2 ti d st p dd =>
      exact noAdminRow_congr (add_task_adminRoles s bid u2 ti d st p dd) hno
    | updateTaskStatus tid st u2 =>
      exact noAdminRow_congr (update_task_status_adminRoles s tid st u2) hno
    | updateTask tid u2 kw =>
      exact noAdminRow_congr (update_task_adminRoles s tid u2 kw) hno
    | deleteTask tid u2 =>
      exact noAdminRow_congr (delete_task_adminRoles s tid u2) hno
    | migrateLegacyData =>
      exact noAdminRow_congr (migrate_adminRoles s) hno

/-- C10 witness: carol is set then overwritten; dave, never touched,
is not admin, and stays rowless across a board creation. -/
theorem admin_roles_upsert_spec_witness :
    (((set_admin exSt7 "carol" true).2.1).adminRoles.map Prod.fst).Nodup ∧
    is_admin (set_admin exSt7 "carol" true).2.1 "carol" = true ∧
    is_admin (set_admin (set_admin exSt7 "carol" true).2.1 "carol" false).2.1 "carol" = false ∧
    is_admin exSt7 "dave" = false ∧
    noAdminRow (runOp (.createBoard "N" "dave" "" "personal") exSt7).2 "dave" :=
  ⟨(admin_roles_upsert_spec exSt7 "carol" true false
      (.createBoard "N" "dave" "" "personal")).1 (by decide),
   (admin_roles_upsert_spec exSt7 "carol" true false
      (.createBoard "N" "dave" "" "personal")).2.1,
   (admin_roles_upsert_spec exSt7 "carol" true false
      (.createBoard "N" "dave" "" "personal")).2.2.1,
   (admin_roles_upsert_spec exSt7 "dave" true false
      (.createBoard "N" "dave" "" "personal")).2.2.2.2.1 (by decide),
   (admin_roles_upsert_spec exSt7 "dave" true false
      (.createBoard "N" "dave" "" "personal")).2.2.2.2.2 (by decide) (by decide)⟩

/-- C7: an identity without the admin flag calling an admin-only
operation gets the empty/denied result with no row data:
`list_all_boards` returns the empty list and `get_user_stats` returns
the failure marker. -/
theorem admin_only_ops_deny_non_admin (s : DBState) (u : String)
    (h : is_admin s u = false) :
    list_all_boards s u = [] ∧ get_user_stats s u = none := by
  refine ⟨?_, ?_⟩
  · simp [list_all_boards, h]
  · simp [get_user_stats, h]

/-- C7 witness: mallory owns a false admin row in a store holding boards
and a task, and both admin operations deny. -/
theorem admin_only_ops_deny_non_admin_witness :
    is_admin exSt7 "mallory" = false ∧
    (list_all_boards exSt7 "mallory" = [] ∧ get_user_stats exSt7 "mallory" = none) :=
  ⟨by decide, admin_only_ops_deny_non_admin exSt7 "mallory" (by decide)⟩

/-! ### Migration (C9) -/

lemma migrate_eq_foldl (s : DBState) :
    (migrate_legacy_data s).2.1 = (orphanUsers s).foldl migrateUser s := by
  unfold migrate_legacy_data
  split
  next h0 =>
    have hfil : s.tasks.filter (fun t => t.boardId.isNone) = [] := by
      rw [List.countP_eq_length_filter] at h0
      exact List.length_eq_zero.mp h0
    have : orphanUsers s = [] := by
      unfold orphanUsers
      rw [hfil]
      rfl
    rw [this]
    rfl
  next h0 => rfl

/-- When no task lacks a board reference, the migration returns success
without touching the store. -/
lemma migrate_noop (x : DBState)
    (h0 : x.tasks.countP (fun t => t.boardId.isNone) = 0) :
    migrate_legacy_data x = (true, x, 0) := by
  unfold migrate_legacy_data
  rw [if_pos h0]

/-- The per-user migration loop: the boards table gains exactly one
personal board named "Personal Board" per processed user, in order, and
each task row is rewritten according to `migratedTask`. -/
lemma foldl_migrateUser_spec (l : List String) :
    ∀ s : DBState, ∃ newB : List Board,
      (l.foldl migrateUser s).boards = s.boards ++ newB ∧
      newB.map (fun b => b.ownerId) = l ∧
      (∀ b ∈ newB, b.boardType = "personal" ∧ b.name = "Personal Board") ∧
      List.Forall₂ (migratedTask newB l) s.tasks (l.foldl migrateUser s).tasks := by
  induction l with
  | nil =>
    intro s
    refine ⟨[], by rw [List.foldl_nil, List.append_nil], rfl,
      fun b hb => absurd hb (List.not_mem_nil b), ?_⟩
    rw [List.foldl_nil]
    exact List.forall₂_same.mpr
      (fun t ht => ⟨fun _ h => absurd h (List.not_mem_nil _), fun _ => rfl⟩)
  | cons u l ih =>
    intro s
    obtain ⟨newB2, hb2, hown2, hper2, hrel2⟩ := ih (migrateUser s u)
    have htasks : (migrateUser s u).tasks = s.tasks.map (fun t =>
        if t.userId == u && t.boardId.isNone then
          { t with boardId := some s.nextBoardId } else t) := rfl
    rw [htasks] at hrel2
    replace hrel2 := List.forall₂_map_left_iff.mp hrel2
    refine ⟨⟨s.nextBoardId, "Personal Board", "Migrated from legacy data",
      "personal", u⟩ :: newB2, ?_, ?_, ?_, ?_⟩
    · rw [List.foldl_cons, hb2]
      show (s.boards ++ [_]) ++ newB2 = _
      rw [List.append_assoc]
      rfl
    · rw [List.map_cons, hown2]
    · intro b hb
      rcases List.mem_cons.mp hb with rfl | hb
      · exact ⟨rfl, rfl⟩
      · exact hper2 b hb
    · rw [List.foldl_cons]
      refine hrel2.imp ?_
      intro t t2 h
      by_cases hc : (t.userId == u && t.boardId.isNone) = true
      · rw [if_pos hc] at h
        have hcand := hc
        simp only [Bool.and_eq_true, beq_iff_eq] at hcand
        have ht2 : t2 = { t with boardId := some s.nextBoardId } := by
          apply h.2
          rintro ⟨hN, _⟩
          simp at hN
        constructor
        · intro _ _
          exact ⟨_, List.mem_cons_self _ _, hcand.1.symm, ht2⟩
        · intro hcon
          exact absurd ⟨hcand.2, by rw [hcand.1]; exact List.mem_cons_self _ _⟩ hcon
      · rw [if_neg hc] at h
        constructor
        · intro hN hmem
          have huser : t.userId ≠ u := by
            intro heq
            exact hc (by simp [heq, hN])
          have hmem2 : t.userId ∈ l := by
            rcases List.mem_cons.mp hmem with h2 | h2
            · exact absurd h2 huser
            · exact h2
          obtain ⟨b, hbmem, hbo, ht2⟩ := h.1 hN hmem2
          exact ⟨b, List.mem_cons_of_mem _ hbmem, hbo, ht2⟩
        · intro hcon
          apply h.2
          rintro ⟨hN, hmem⟩
          exact hcon ⟨hN, List.mem_cons_of_mem _ hmem⟩

/-- If every orphaned row's user was processed, no orphaned row survives
the migration loop. -/
lemma migratedTask_no_orphan {newB : List Board} {l : List String} :
    ∀ {ts ts2 : List Task}, List.Forall₂ (migratedTask newB l) ts ts2 →
    (∀ t ∈ ts, t.boardId.isNone = true → t.userId ∈ l) →
    ∀ t2 ∈ ts2, t2.boardId.isNone = false := by
  intro ts ts2 h
  induction h with
  | nil => exact fun _ t2 ht2 => absurd ht2 (List.not_mem_nil t2)
  | @cons a b l1 l2 hab hrest ih =>
    intro hside t2 ht2
    rcases List.mem_cons.mp ht2 with rfl | ht2
    · by_cases hN : a.boardId.isNone = true
      · obtain ⟨bb, _, _, ht2eq⟩ := hab.1 hN (hside a (List.mem_cons_self a l1) hN)
        rw [ht2eq]
        rfl
      · have heq := hab.2 (fun hcon => hN hcon.1)
        rw [heq]
        simp only [Bool.not_eq_true] at hN
        exact hN
    · exact ih (fun t ht => hside t (List.mem_cons_of_mem a ht)) t2 ht2

/-- C9: `migrate_legacy_data` succeeds; it is a no-op when no task lacks
a board reference; the distinct orphan owners are duplicate-free and the
run appends exactly one personal board per such owner (in order), every
orphaned task of an owner being repointed at that owner's new board and
every other task left untouched; and re-running it immediately afterward
is a no-op returning success. -/
theorem migrate_legacy_spec (s : DBState) :
    (migrate_legacy_data s).1 = true ∧
    (s.tasks.countP (fun t => t.boardId.isNone) = 0 →
      (migrate_legacy_data s).2.1 = s) ∧
    (orphanUsers s).Nodup ∧
    (∃ newB : List Board,
      (migrate_legacy_data s).2.1.boards = s.boards ++ newB ∧
      newB.map (fun b => b.ownerId) = orphanUsers s ∧
      (∀ b ∈ newB, b.boardType = "personal" ∧ b.name = "Personal Board") ∧
      List.Forall₂ (migratedTask newB (orphanUsers s)) s.tasks
        (migrate_legacy_data s).2.1.tasks ∧
      (∀ t ∈ s.tasks, t.boardId.isNone = true → t.userId ∈ orphanUsers s)) ∧
    migrate_legacy_data ((migrate_legacy_data s).2.1) =
      (true, (migrate_legacy_data s).2.1, 0) := by
  obtain ⟨newB, hb, hown, hper, hrel⟩ := foldl_migrateUser_spec (orphanUsers s) s
  have hEq := migrate_eq_foldl s
  rw [← hEq] at hb hrel
  have horph : ∀ t ∈ s.tasks, t.boardId.isNone = true → t.userId ∈ orphanUsers s := by
    intro t ht hN
    unfold orphanUsers
    rw [List.mem_dedup]
    exact List.mem_map.mpr ⟨t, List.mem_filter.mpr ⟨ht, hN⟩, rfl⟩
  refine ⟨?_, ?_, List.nodup_dedup _, ⟨newB, hb, hown, hper, hrel, horph⟩, ?_⟩
  · unfold migrate_legacy_data
    split <;> rfl
  · intro h0
    rw [migrate_noop s h0]
  · have hno := migratedTask_no_orphan hrel horph
    have hcount : ((migrate_legacy_data s).2.1).tasks.countP
        (fun t => t.boardId.isNone) = 0 := by
      rw [List.countP_eq_zero]
      intro t2 ht2
      simp [hno t2 ht2]
    exact migrate_noop _ hcount

/-- C9 witness: on the concrete legacy store the migration creates one
personal board per orphan owner and reassigns their tasks; a second run
is a no-op, as is a run on a store with no orphans. -/
theorem migrate_legacy_spec_witness :
    (migrate_legacy_data exSt1).2.1 = exSt1 ∧
    migrate_legacy_data ((migrate_legacy_data exSt9).2.1) =
      (true, (migrate_legacy_data exSt9).2.1, 0) :=
  ⟨(migrate_legacy_spec exSt1).2.1 (by decide),
   (migrate_legacy_spec exSt9).2.2.2.2⟩

end Kanban
